import Mathlib

/-!
# Verification of the KataGo SGF result-aggregation engine

Shallow embedding of `src/python/summarize_sgfs.py` (class `GameResultSummary`
plus the free-standing `Record` dataclass).  Pure Python functions become Lean
functions; the mutable `GameResultSummary` object becomes an explicit
`Summary` state threaded through the operations; a Python exception that
propagates out of a method is modelled as `Except Summary Summary`, the
`error` payload carrying the state of the object at the moment the exception
escaped (Python mutations performed before the raise persist).

The external collaborators (the `sgfmill` SGF parser and the `elo` module)
are out of scope per the spec; a raw game record is modelled by the result of
parsing it: `RawGame := Option ParsedGame`, `none` standing for a record on
which `sgf.Sgf_game.from_bytes` (or a field accessor) raises.  Python floats
(komi, matrix cells, win rates) are modelled as `Rat`; all values occurring
here (halves, small counts) are exactly representable as doubles, so `Rat`
arithmetic agrees with the float arithmetic of the source.

The file system is modelled as a finite map from directory names to their
listings and from file names to their contents.  A file's content is given
post-read, in both of the two views the source takes of raw bytes:
`lines` (what `f.readlines()` yields, one raw record per line, used by
`_add_one_sgfs_file_to_result`) and `whole` (the parse of `f.read()`, the
entire content as one record, used by `_add_one_sgf_file_to_result`).
-/

namespace SummarizeSgfs

/-- Winner of a game as reported by `sgfmill`'s `get_winner`: `'b'`, `'w'`,
or `None` (no winner / draw). -/
inductive Winner where
  | black
  | white
  | noWinner
deriving DecidableEq, Repr

/-- The four fields the aggregator reads from one parsed game record:
`get_winner`, `get_player_name('b')`, `get_player_name('w')`,
`get_handicap` (`None` or a handicap count), `get_komi`. -/
structure ParsedGame where
  winner : Winner
  black : String
  white : String
  handicap : Option Nat
  komi : Rat
deriving DecidableEq, Repr

/-- A raw game record, modelled by its parse: `none` means the external
parser raises on it. -/
abbrev RawGame := Option ParsedGame

/-- The `Record` dataclass of `summarize_sgfs.py`: win/lost/draw counters
for one ordered `(black_player_name, white_player_name)` key. -/
structure Record where
  win : Nat := 0
  lost : Nat := 0
  draw : Nat := 0
deriving DecidableEq, Repr

/-- `win + lost + draw`, the `total` computed in `_estimate_elo`. -/
def Record.total (r : Record) : Nat := r.win + r.lost + r.draw

/-- `Record()` — all three counters default to 0. -/
def zeroRecord : Record := { win := 0, lost := 0, draw := 0 }

/-- Keys of `self.results`: `(black_player_name, white_player_name)`. -/
abbrev PKey := String × String

/-- Python-dict lookup `self.results[k]` as an association-list lookup
(`none` models a `KeyError`). -/
def lookupRecord (rs : List (PKey × Record)) (k : PKey) : Option Record :=
  (rs.find? (fun kv => decide (kv.1 = k))).map (·.2)

/-- `if key not in self.results: self.results[key] = Record()` — insert a
fresh zero record at the end (dict insertion order) when the key is absent. -/
def ensureKey (rs : List (PKey × Record)) (k : PKey) : List (PKey × Record) :=
  if (lookupRecord rs k).isSome then rs else rs ++ [(k, zeroRecord)]

/-- The three-way `if/elif/else` of `_add_a_single_sgf_string`: increment
`win` when the winner is `'b'`, `lost` when `'w'`, `draw` otherwise. -/
def bump (w : Winner) (r : Record) : Record :=
  match w with
  | .black => { r with win := r.win + 1 }
  | .white => { r with lost := r.lost + 1 }
  | .noWinner => { r with draw := r.draw + 1 }

/-- In-place field increment `self.results[k].<field> += 1` on the entry at
key `k` (a no-op when the key is absent, which `_add_a_single_sgf_string`
rules out by the preceding `ensureKey`). -/
def bumpAt (rs : List (PKey × Record)) (k : PKey) (w : Winner) :
    List (PKey × Record) :=
  match rs with
  | [] => []
  | (k', r) :: rest =>
    if k' = k then (k', bump w r) :: rest else (k', r) :: bumpAt rest k w

/-- The state of one `GameResultSummary` instance: `self.results`,
`self._all_sgfs_files`, `self._all_sgf_files`, `self._new_sgfs_files`,
`self._new_sgf_files`, `self._warning`, `self._elo_prior`.  Python sets of
path strings are modelled as duplicate-free lists in some iteration order. -/
structure Summary where
  results : List (PKey × Record)
  allSgfs : List String
  allSgf : List String
  newSgfs : List String
  newSgf : List String
  warning : Bool
  eloPrior : Rat
deriving DecidableEq, Repr

instance decEqExcept {ε α : Type} [DecidableEq ε] [DecidableEq α] :
    DecidableEq (Except ε α) := fun a b =>
  match a, b with
  | .ok x, .ok y =>
    if h : x = y then isTrue (by rw [h])
    else isFalse (fun hc => h (Except.ok.inj hc))
  | .error x, .error y =>
    if h : x = y then isTrue (by rw [h])
    else isFalse (fun hc => h (Except.error.inj hc))
  | .ok _, .error _ => isFalse (fun hc => Except.noConfusion hc)
  | .error _, .ok _ => isFalse (fun hc => Except.noConfusion hc)

/-- `GameResultSummary.__init__(elo_prior)`. -/
def initialSummary (prior : Rat) : Summary :=
  { results := [], allSgfs := [], allSgf := [], newSgfs := [], newSgf := [],
    warning := false, eloPrior := prior }

/-- `GameResultSummary.clear()`: results, all four path sets and the warning
flag are reset; `self._elo_prior` is not touched by `clear`. -/
def Summary.clear (st : Summary) : Summary :=
  { results := [], allSgfs := [], allSgf := [], newSgfs := [], newSgf := [],
    warning := false, eloPrior := st.eloPrior }

/-- Set difference `a.difference(b)` on path sets. -/
def sdiff (a b : List String) : List String :=
  a.filter (fun x => decide (x ∉ b))

/-- Set union `a.union(b)` on path sets, keeping `a`'s elements first. -/
def sunion (a b : List String) : List String :=
  a ++ b.filter (fun x => decide (x ∉ a))

/-- Python `file.split(".")[-1]`: the characters after the last `'.'`
(the whole name when there is no dot). -/
def lastDotComponent : List Char → List Char → List Char
  | [], acc => acc
  | c :: cs, acc =>
    if c = '.' then lastDotComponent cs [] else lastDotComponent cs (acc ++ [c])

/-- `file.split(".")[-1].lower()` — the lowercased extension used to
classify files in `_add_game_file_names` and `_add_a_game_file_name`. -/
def extOf (s : String) : String :=
  String.mk ((lastDotComponent s.data []).map Char.toLower)

/-- One game file of the modelled file system, post-read: `lines` is what
`readlines()` yields (one raw record per line), `whole` the parse of the
entire content read at once. -/
structure GameFile where
  lines : List RawGame
  whole : RawGame
deriving DecidableEq, Repr

/-- The file system: existing directories with their listings (full paths,
as `os.listdir` joined with the directory produces) and existing files with
their contents. -/
structure FS where
  dirs : List (String × List String)
  files : List (String × GameFile)

/-- `os.listdir(d)` (with `os.path.join`), `none` when the directory does
not exist (`os.path.exists` false). -/
def FS.listDir (fs : FS) (d : String) : Option (List String) :=
  (fs.dirs.find? (fun kv => decide (kv.1 = d))).map (·.2)

/-- Content of an existing file. -/
def FS.getFile (fs : FS) (p : String) : Option GameFile :=
  (fs.files.find? (fun kv => decide (kv.1 = p))).map (·.2)

/-- `os.path.isfile(p)`. -/
def FS.isFile (fs : FS) (p : String) : Bool :=
  (fs.getFile p).isSome

/-- `_add_game_file_names(input_file_dir, search_subdir)` for the
non-recursive listing (the `search_subdir` walk differs only in which paths
are listed, which the model's directory listing already determines): if the
directory does not exist, print and return with no state change; otherwise
classify listed files by lowercased extension, set the new-file sets to the
difference against the tracked sets, and union the tracked sets. -/
def addGameFileNames (fs : FS) (st : Summary) (dir : String) : Summary :=
  match fs.listDir dir with
  | none => st
  | some files =>
    let newSgfsSet := (files.filter (fun f => decide (extOf f = "sgfs"))).dedup
    let newSgfSet := (files.filter (fun f => decide (extOf f = "sgf"))).dedup
    { st with
      newSgfs := sdiff newSgfsSet st.allSgfs,
      newSgf := sdiff newSgfSet st.allSgf,
      allSgfs := sunion st.allSgfs newSgfsSet,
      allSgf := sunion st.allSgf newSgfSet }

/-- `_add_a_game_file_name(input_file_name)`.  Note the source assigns
`self._new_sgf_files = {input}.difference(all)` (resp. sgfs) before testing
emptiness, so on a duplicate the corresponding new-set is overwritten with
the empty set and the function returns without touching the all-set. -/
def addAGameFileName (fs : FS) (st : Summary) (path : String) : Summary :=
  if ¬ fs.isFile path then st
  else if extOf path = "sgf" then
    let new := sdiff [path] st.allSgf
    let st' := { st with newSgf := new }
    if new.isEmpty then st'
    else { st' with allSgf := sunion st.allSgf [path] }
  else if extOf path = "sgfs" then
    let new := sdiff [path] st.allSgfs
    let st' := { st with newSgfs := new }
    if new.isEmpty then st'
    else { st' with allSgfs := sunion st.allSgfs [path] }
  else st

/-- The literal `5.5` of `_add_a_single_sgf_string`, written as an explicit
reduced fraction (`Rat` division normalizes through `Nat.gcd`, which the
kernel cannot unfold; the explicit constructor keeps comparisons against the
constant kernel-decidable).  `komiLowBound_eq` below checks it is `11/2`. -/
def komiLowBound : Rat := Rat.mk' 11 2 (by decide) (by norm_num)

/-- The literal `7.5` of `_add_a_single_sgf_string` as a reduced fraction;
`komiHighBound_eq` below checks it is `15/2`. -/
def komiHighBound : Rat := Rat.mk' 15 2 (by decide) (by norm_num)

theorem komiLowBound_eq : komiLowBound = 11 / 2 := by
  rw [komiLowBound, Rat.mk'_eq_divInt, Rat.divInt_eq_div]; norm_num

theorem komiHighBound_eq : komiHighBound = 15 / 2 := by
  rw [komiHighBound, Rat.mk'_eq_divInt, Rat.divInt_eq_div]; norm_num

/-- Whether one game sets `self._warning` in `_add_a_single_sgf_string`:
`(handicap is not None) or komi < 5.5 or komi > 7.5`. -/
def triggersWarning (g : ParsedGame) : Bool :=
  g.handicap.isSome || decide (g.komi < komiLowBound)
    || decide (komiHighBound < g.komi)

/-- The successful-parse body of `_add_a_single_sgf_string`: set the sticky
warning when the game is non-standard, ensure the `(black, white)` key
exists, then increment the field selected by the winner. -/
def addASingleParsed (st : Summary) (g : ParsedGame) : Summary :=
  let st' := if triggersWarning g then { st with warning := true } else st
  { st' with
    results := bumpAt (ensureKey st'.results (g.black, g.white))
      (g.black, g.white) g.winner }

/-- `_add_a_single_sgf_string(sgf_string)`: the parse happens first; if it
raises, the exception escapes with the state unchanged. -/
def addASingleSgfString (st : Summary) (raw : RawGame) :
    Except Summary Summary :=
  match raw with
  | none => .error st
  | some g => .ok (addASingleParsed st g)

/-- The per-line loop of `_add_one_sgfs_file_to_result`: fold each raw
record; an exception raised by one record propagates, skipping the rest. -/
def foldRecords (st : Summary) : List RawGame → Except Summary Summary
  | [] => .ok st
  | r :: rest =>
    match addASingleSgfString st r with
    | .ok st' => foldRecords st' rest
    | .error st' => .error st'

/-- `_add_one_sgfs_file_to_result(sgfs_file_name)`: missing file prints and
returns; otherwise every line of the file is one raw record. -/
def addOneSgfsFile (fs : FS) (st : Summary) (path : String) :
    Except Summary Summary :=
  match fs.getFile path with
  | none => .ok st
  | some f => foldRecords st f.lines

/-- `_add_one_sgf_file_to_result(sgf_file_name)`: missing file prints and
returns; otherwise the whole content is one raw record. -/
def addOneSgfFile (fs : FS) (st : Summary) (path : String) :
    Except Summary Summary :=
  match fs.getFile path with
  | none => .ok st
  | some f => addASingleSgfString st f.whole

/-- The sgfs loop of `_add_new_games_to_result_dict`. -/
def addSgfsFilesLoop (fs : FS) (st : Summary) :
    List String → Except Summary Summary
  | [] => .ok st
  | p :: rest =>
    match addOneSgfsFile fs st p with
    | .ok st' => addSgfsFilesLoop fs st' rest
    | .error st' => .error st'

/-- The sgf loop of `_add_new_games_to_result_dict`. -/
def addSgfFilesLoop (fs : FS) (st : Summary) :
    List String → Except Summary Summary
  | [] => .ok st
  | p :: rest =>
    match addOneSgfFile fs st p with
    | .ok st' => addSgfFilesLoop fs st' rest
    | .error st' => .error st'

/-- `_add_new_games_to_result_dict()`: process `self._new_sgfs_files`, then
`self._new_sgf_files`.  Neither loop clears the new-file sets. -/
def addNewGamesToResultDict (fs : FS) (st : Summary) :
    Except Summary Summary :=
  match addSgfsFilesLoop fs st st.newSgfs with
  | .error st' => .error st'
  | .ok st' => addSgfFilesLoop fs st' st'.newSgf

/-- `add_games(input_file_dir, search_subdir)`. -/
def addGames (fs : FS) (st : Summary) (dir : String) :
    Except Summary Summary :=
  addNewGamesToResultDict fs (addGameFileNames fs st dir)

/-- `add_a_game_file(input_file_name)`.  Note it calls
`_add_new_games_to_result_dict` unconditionally, even when
`_add_a_game_file_name` rejected the path. -/
def addAGameFile (fs : FS) (st : Summary) (path : String) :
    Except Summary Summary :=
  addNewGamesToResultDict fs (addAGameFileName fs st path)

/-! ## Reporting layer -/

/-- `list(set(itertools.chain(*(name_pair for name_pair in results.keys()))))`
— the distinct player names appearing on either side of any key, in the
(arbitrary-but-fixed) order of first appearance. -/
def playerNames (rs : List (PKey × Record)) : List String :=
  (rs.foldr (fun kv acc => kv.1.1 :: kv.1.2 :: acc) []).dedup

/-- One cell of `_build_result_matrix`: `0` on the diagonal, otherwise
`results[(p1,p2)].win + results[(p2,p1)].lost
 + 0.5 * (results[(p1,p2)].draw + results[(p2,p1)].draw)`; `none` models the
`KeyError` raised when either oriented key is absent. -/
def matrixCell (rs : List (PKey × Record)) (p1 p2 : String) : Option Rat :=
  if p1 = p2 then some 0
  else
    match lookupRecord rs (p1, p2), lookupRecord rs (p2, p1) with
    | some r12, some r21 =>
      some ((r12.win : Rat) + (r21.lost : Rat)
        + ((r12.draw : Rat) + (r21.draw : Rat)) / 2)
    | _, _ => none

/-- The inner loop of `_build_result_matrix`: one row, a `KeyError` in any
cell propagating. -/
def buildRow (rs : List (PKey × Record)) (p1 : String) :
    List String → Option (List Rat)
  | [] => some []
  | p2 :: rest =>
    match matrixCell rs p1 p2, buildRow rs p1 rest with
    | some c, some cs => some (c :: cs)
    | _, _ => none

/-- The outer loop of `_build_result_matrix` over row players. -/
def buildRows (rs : List (PKey × Record)) (names : List String) :
    List String → Option (List (List Rat))
  | [] => some []
  | p1 :: rest =>
    match buildRow rs p1 names, buildRows rs names rest with
    | some row, some rows => some (row :: rows)
    | _, _ => none

/-- `_build_result_matrix()`. -/
def buildResultMatrix (rs : List (PKey × Record)) :
    Option (List (List Rat)) :=
  buildRows rs (playerNames rs) (playerNames rs)

/-- One pairwise observation of `_estimate_elo`'s preparation loop:
`record = results[(p1,p2)]` (`KeyError` when absent), `total = win+lost+draw`,
`winrate = (win + 0.5*draw) / total` (`ZeroDivisionError` when `total = 0`).
Returns `(total, winrate)`. -/
def eloCell (rs : List (PKey × Record)) (p1 p2 : String) :
    Option (Rat × Rat) :=
  match lookupRecord rs (p1, p2) with
  | none => none
  | some r =>
    if r.total = 0 then none
    else some ((r.total : Rat),
      ((r.win : Rat) + (r.draw : Rat) / 2) / (r.total : Rat))

/-- Inner loop of `_estimate_elo`'s data preparation: the `(p1, p2, total,
winrate)` tuples handed to the external `elo.likelihood_of_games`, the
diagonal skipped by `continue`; an exception in any iteration propagates. -/
def eloRow (rs : List (PKey × Record)) (p1 : String) :
    List String → Option (List (String × String × Rat × Rat))
  | [] => some []
  | p2 :: rest =>
    if p1 = p2 then eloRow rs p1 rest
    else
      match eloCell rs p1 p2, eloRow rs p1 rest with
      | some (t, wr), some cs => some ((p1, p2, t, wr) :: cs)
      | _, _ => none

/-- Outer loop of `_estimate_elo`'s data preparation. -/
def eloRows (rs : List (PKey × Record)) (names : List String) :
    List String → Option (List (String × String × Rat × Rat))
  | [] => some []
  | p1 :: rest =>
    match eloRow rs p1 names, eloRows rs names rest with
    | some row, some rows => some (row ++ rows)
    | _, _ => none

/-- The observation list `_estimate_elo` builds before calling the external
estimator (the estimator itself is out of scope). -/
def estimateEloData (rs : List (PKey × Record)) :
    Option (List (String × String × Rat × Rat)) :=
  eloRows rs (playerNames rs) (playerNames rs)

/-- `max(pla_names, key=len)` reduced to the quantity `_print_player_info`
uses (the length of the longest name); `none` models the `ValueError` that
`max` raises on an empty set of names. -/
def maxNameLen : List String → Option Nat
  | [] => none
  | n :: rest => some ((rest.map String.length).foldl max n.length)

/-- `_print_player_info()`: the column width and the name-to-index legend
(`len("Player Name") = 11`); `none` models the `ValueError` on an empty
table. -/
def printPlayerInfo (rs : List (PKey × Record)) :
    Option (Nat × List (Nat × String)) :=
  match maxNameLen (playerNames rs) with
  | none => none
  | some m => some (max 11 m + 1, (playerNames rs).enum)

/-- `max(sublist)` for one matrix row (`ValueError` on an empty row). -/
def maxOfRow : List Rat → Option Rat
  | [] => none
  | x :: xs => some (xs.foldl max x)

/-- The per-row maxima of `max([max(sublist) for sublist in m])`. -/
def rowMaxes : List (List Rat) → Option (List Rat)
  | [] => some []
  | r :: rest =>
    match maxOfRow r, rowMaxes rest with
    | some m, some ms => some (m :: ms)
    | _, _ => none

/-- `max([max(sublist) for sublist in m])`: `none` models the `ValueError`
raised when the matrix (or one of its rows) is empty. -/
def maxOfMatrix (m : List (List Rat)) : Option Rat :=
  match rowMaxes m with
  | none => none
  | some ms => maxOfRow ms

/-- `_print_result_matrix()`: builds the matrix, computes the maximum entry
for the column width (`int(math.log10(max)) + 5`; `math.log10` additionally
raises on a non-positive argument), and prints the matrix.  The printed rows
are the matrix itself; the width arithmetic past the `max`/`log10` failure
points is pure formatting and is elided. -/
def printResultMatrix (rs : List (PKey × Record)) :
    Option (List (List Rat)) :=
  match buildResultMatrix rs with
  | none => none
  | some m =>
    match maxOfMatrix m with
    | none => none
    | some mx => if mx ≤ 0 then none else some m

/-- `print_game_results()`: the player legend then the result matrix; an
exception in either aborts the report. -/
def printGameResults (rs : List (PKey × Record)) :
    Option ((Nat × List (Nat × String)) × List (List Rat)) :=
  match printPlayerInfo rs with
  | none => none
  | some legend =>
    match printResultMatrix rs with
    | none => none
    | some m => some (legend, m)

/-- Sum of all three counters over every entry of the results table. -/
def totalGames (rs : List (PKey × Record)) : Nat :=
  (rs.map (fun kv => kv.2.total)).sum

/-! ## Helper lemmas on the results table -/

theorem lookupRecord_nil (k : PKey) : lookupRecord [] k = none := rfl

theorem lookupRecord_cons (kv : PKey × Record) (rs : List (PKey × Record))
    (k : PKey) :
    lookupRecord (kv :: rs) k
      = if kv.1 = k then some kv.2 else lookupRecord rs k := by
  by_cases h : kv.1 = k <;> simp [lookupRecord, List.find?, h]

theorem lookupRecord_append_single (rs : List (PKey × Record)) (k : PKey)
    (r : Record) (h : lookupRecord rs k = none) :
    lookupRecord (rs ++ [(k, r)]) k = some r := by
  induction rs with
  | nil => simp [lookupRecord]
  | cons kv rest ih =>
    rw [List.cons_append, lookupRecord_cons]
    rw [lookupRecord_cons] at h
    by_cases hk : kv.1 = k
    · simp [hk] at h
    · simp only [hk, if_false] at h ⊢
      exact ih h

theorem lookupRecord_append_single_ne (rs : List (PKey × Record))
    (k k' : PKey) (r : Record) (hne : k' ≠ k) :
    lookupRecord (rs ++ [(k, r)]) k' = lookupRecord rs k' := by
  induction rs with
  | nil =>
    simp only [List.nil_append]
    rw [lookupRecord_cons]
    simp [Ne.symm hne, lookupRecord]
  | cons kv rest ih =>
    rw [List.cons_append, lookupRecord_cons, lookupRecord_cons]
    by_cases hk : kv.1 = k' <;> simp [hk, ih]

/-- After `ensureKey`, the key is present, holding its previous record or a
fresh zero record. -/
theorem lookupRecord_ensureKey_self (rs : List (PKey × Record)) (k : PKey) :
    lookupRecord (ensureKey rs k) k
      = some ((lookupRecord rs k).getD zeroRecord) := by
  unfold ensureKey
  cases h : lookupRecord rs k with
  | none => simp [h, lookupRecord_append_single rs k zeroRecord h]
  | some r => simp [h]

theorem lookupRecord_ensureKey_ne (rs : List (PKey × Record)) (k k' : PKey)
    (hne : k' ≠ k) :
    lookupRecord (ensureKey rs k) k' = lookupRecord rs k' := by
  unfold ensureKey
  cases h : (lookupRecord rs k).isSome with
  | true => simp
  | false => simp [lookupRecord_append_single_ne rs k k' zeroRecord hne]

theorem lookupRecord_bumpAt_self (rs : List (PKey × Record)) (k : PKey)
    (w : Winner) :
    lookupRecord (bumpAt rs k w) k = (lookupRecord rs k).map (bump w) := by
  induction rs with
  | nil => simp [bumpAt, lookupRecord]
  | cons kv rest ih =>
    obtain ⟨k', r⟩ := kv
    unfold bumpAt
    by_cases hk : k' = k
    · subst hk
      rw [if_pos rfl, lookupRecord_cons, lookupRecord_cons]
      simp
    · simp only [hk, if_false]
      rw [lookupRecord_cons, lookupRecord_cons]
      simp [hk, ih]

theorem lookupRecord_bumpAt_ne (rs : List (PKey × Record)) (k k' : PKey)
    (w : Winner) (hne : k' ≠ k) :
    lookupRecord (bumpAt rs k w) k' = lookupRecord rs k' := by
  induction rs with
  | nil => simp [bumpAt]
  | cons kv rest ih =>
    obtain ⟨k'', r⟩ := kv
    unfold bumpAt
    by_cases hk : k'' = k
    · subst hk
      rw [if_pos rfl, lookupRecord_cons, lookupRecord_cons]
      simp [Ne.symm hne]
    · simp only [hk, if_false]
      rw [lookupRecord_cons, lookupRecord_cons]
      by_cases hk' : k'' = k' <;> simp [hk', ih]

/-- The results table after one successfully parsed game, at the game's own
key: the previous record (or a fresh zero record) with the winner's field
bumped. -/
theorem lookupRecord_addASingleParsed_self (st : Summary) (g : ParsedGame) :
    lookupRecord (addASingleParsed st g).results (g.black, g.white)
      = some (bump g.winner
          ((lookupRecord st.results (g.black, g.white)).getD zeroRecord)) := by
  unfold addASingleParsed
  cases h : triggersWarning g <;>
    simp [h, lookupRecord_bumpAt_self, lookupRecord_ensureKey_self]

/-- One fold touches no key other than the game's own. -/
theorem lookupRecord_addASingleParsed_ne (st : Summary) (g : ParsedGame)
    (k : PKey) (hne : k ≠ (g.black, g.white)) :
    lookupRecord (addASingleParsed st g).results k
      = lookupRecord st.results k := by
  unfold addASingleParsed
  cases h : triggersWarning g <;>
    simp [h, lookupRecord_bumpAt_ne _ _ _ _ hne,
      lookupRecord_ensureKey_ne _ _ _ hne]

theorem bump_total (w : Winner) (r : Record) :
    (bump w r).total = r.total + 1 := by
  cases w <;> simp [bump, Record.total] <;> omega

theorem totalGames_bumpAt (rs : List (PKey × Record)) (k : PKey) (w : Winner)
    (h : (lookupRecord rs k).isSome) :
    totalGames (bumpAt rs k w) = totalGames rs + 1 := by
  induction rs with
  | nil => simp [lookupRecord] at h
  | cons kv rest ih =>
    obtain ⟨k', r⟩ := kv
    unfold bumpAt
    by_cases hk : k' = k
    · simp [hk, totalGames, bump_total]
      omega
    · rw [lookupRecord_cons] at h
      simp only [hk, if_false] at h ⊢
      simp only [totalGames, List.map_cons, List.sum_cons] at ih ⊢
      rw [ih h]
      omega

theorem totalGames_ensureKey (rs : List (PKey × Record)) (k : PKey) :
    totalGames (ensureKey rs k) = totalGames rs := by
  unfold ensureKey
  cases h : (lookupRecord rs k).isSome with
  | true => simp
  | false => simp [totalGames, zeroRecord, Record.total]

theorem isSome_lookupRecord_ensureKey (rs : List (PKey × Record)) (k : PKey) :
    (lookupRecord (ensureKey rs k) k).isSome := by
  rw [lookupRecord_ensureKey_self]; rfl

/-- Each successfully folded game record adds exactly 1 to the grand total
of all counters. -/
theorem totalGames_addASingleParsed (st : Summary) (g : ParsedGame) :
    totalGames (addASingleParsed st g).results = totalGames st.results + 1 := by
  unfold addASingleParsed
  cases h : triggersWarning g <;>
    simp [h, totalGames_bumpAt _ _ _ (isSome_lookupRecord_ensureKey _ _),
      totalGames_ensureKey]

theorem totalGames_foldl_addASingleParsed (st : Summary)
    (gs : List ParsedGame) :
    totalGames (List.foldl addASingleParsed st gs).results
      = totalGames st.results + gs.length := by
  induction gs generalizing st with
  | nil => simp
  | cons g rest ih =>
    simp only [List.foldl_cons, List.length_cons]
    rw [ih, totalGames_addASingleParsed]
    omega

/-- The warning flag after one fold. -/
theorem warning_addASingleParsed (st : Summary) (g : ParsedGame) :
    (addASingleParsed st g).warning = (st.warning || triggersWarning g) := by
  unfold addASingleParsed
  cases h : triggersWarning g <;> simp [h]

theorem warning_foldl_addASingleParsed (st : Summary) (gs : List ParsedGame) :
    (List.foldl addASingleParsed st gs).warning
      = (st.warning || gs.any triggersWarning) := by
  induction gs generalizing st with
  | nil => simp
  | cons g rest ih =>
    simp only [List.foldl_cons, List.any_cons]
    rw [ih, warning_addASingleParsed]
    simp [Bool.or_assoc]

/-! ## Helper lemmas on the reporting layer -/

theorem playerNames_nodup (rs : List (PKey × Record)) :
    (playerNames rs).Nodup :=
  List.nodup_dedup _

theorem matrixCell_diag (rs : List (PKey × Record)) (p : String) :
    matrixCell rs p p = some 0 := by
  simp [matrixCell]

theorem matrixCell_ne_some (rs : List (PKey × Record)) (p1 p2 : String)
    (v : Rat) (hne : p1 ≠ p2) (h : matrixCell rs p1 p2 = some v) :
    ∃ r12 r21, lookupRecord rs (p1, p2) = some r12
      ∧ lookupRecord rs (p2, p1) = some r21
      ∧ v = (r12.win : Rat) + (r21.lost : Rat)
          + ((r12.draw : Rat) + (r21.draw : Rat)) / 2 := by
  unfold matrixCell at h
  rw [if_neg hne] at h
  cases h12 : lookupRecord rs (p1, p2) with
  | none => rw [h12] at h; exact absurd h (by simp)
  | some r12 =>
    cases h21 : lookupRecord rs (p2, p1) with
    | none => rw [h12, h21] at h; exact absurd h (by simp)
    | some r21 =>
      rw [h12, h21] at h
      exact ⟨r12, r21, rfl, rfl, (Option.some_inj.mp h).symm⟩

theorem matrixCell_none_left (rs : List (PKey × Record)) (p1 p2 : String)
    (hne : p1 ≠ p2) (h : lookupRecord rs (p1, p2) = none) :
    matrixCell rs p1 p2 = none := by
  unfold matrixCell
  rw [if_neg hne, h]

theorem buildRow_length (rs : List (PKey × Record)) (p1 : String)
    (l : List String) (row : List Rat) (h : buildRow rs p1 l = some row) :
    row.length = l.length := by
  induction l generalizing row with
  | nil =>
    unfold buildRow at h
    simp only [Option.some_inj] at h
    subst h; rfl
  | cons p2 rest ih =>
    unfold buildRow at h
    cases hc : matrixCell rs p1 p2 <;> rw [hc] at h
    · exact absurd h (by simp)
    · cases hr : buildRow rs p1 rest <;> rw [hr] at h
      · exact absurd h (by simp)
      · simp only [Option.some_inj] at h
        subst h
        simp [ih _ hr]

theorem buildRow_cell (rs : List (PKey × Record)) (p1 : String)
    (l : List String) (row : List Rat) (h : buildRow rs p1 l = some row)
    (j : Nat) (hj : j < l.length) :
    matrixCell rs p1 (l.getD j "") = some (row.getD j 0) := by
  induction l generalizing row j with
  | nil => exact absurd hj (by simp)
  | cons p2 rest ih =>
    unfold buildRow at h
    cases hc : matrixCell rs p1 p2 <;> rw [hc] at h
    · exact absurd h (by simp)
    · cases hr : buildRow rs p1 rest <;> rw [hr] at h
      · exact absurd h (by simp)
      · simp only [Option.some_inj] at h
        subst h
        cases j with
        | zero => simpa using hc
        | succ j' =>
          simp only [List.getD_cons_succ]
          exact ih _ hr j' (by simpa using hj)

theorem buildRow_none_of_mem (rs : List (PKey × Record)) (p1 : String)
    (l : List String) (p2 : String) (h2 : p2 ∈ l)
    (hc : matrixCell rs p1 p2 = none) : buildRow rs p1 l = none := by
  induction l with
  | nil => exact absurd h2 (by simp)
  | cons q rest ih =>
    unfold buildRow
    rcases List.mem_cons.mp h2 with hq | hmem
    · subst hq; rw [hc]
    · rw [ih hmem]
      cases matrixCell rs p1 q <;> rfl

theorem buildRows_length (rs : List (PKey × Record)) (names l : List String)
    (M : List (List Rat)) (h : buildRows rs names l = some M) :
    M.length = l.length := by
  induction l generalizing M with
  | nil =>
    unfold buildRows at h
    simp only [Option.some_inj] at h
    subst h; rfl
  | cons p1 rest ih =>
    unfold buildRows at h
    cases hr : buildRow rs p1 names <;> rw [hr] at h
    · exact absurd h (by simp)
    · cases hm : buildRows rs names rest <;> rw [hm] at h
      · exact absurd h (by simp)
      · simp only [Option.some_inj] at h
        subst h
        simp [ih _ hm]

theorem buildRows_row (rs : List (PKey × Record)) (names l : List String)
    (M : List (List Rat)) (h : buildRows rs names l = some M)
    (i : Nat) (hi : i < l.length) :
    buildRow rs (l.getD i "") names = some (M.getD i []) := by
  induction l generalizing M i with
  | nil => exact absurd hi (by simp)
  | cons p1 rest ih =>
    unfold buildRows at h
    cases hr : buildRow rs p1 names <;> rw [hr] at h
    · exact absurd h (by simp)
    · cases hm : buildRows rs names rest <;> rw [hm] at h
      · exact absurd h (by simp)
      · simp only [Option.some_inj] at h
        subst h
        cases i with
        | zero => simpa using hr
        | succ i' =>
          simp only [List.getD_cons_succ]
          exact ih _ hm i' (by simpa using hi)

theorem buildRows_none_of_mem (rs : List (PKey × Record))
    (names l : List String) (p1 : String) (h1 : p1 ∈ l)
    (hr : buildRow rs p1 names = none) : buildRows rs names l = none := by
  induction l with
  | nil => exact absurd h1 (by simp)
  | cons q rest ih =>
    unfold buildRows
    rcases List.mem_cons.mp h1 with hq | hmem
    · subst hq; rw [hr]
    · rw [ih hmem]
      cases buildRow rs q names <;> rfl

/-- The cell extraction combining rows and columns: under a successful
build, `M[i][j]` is the value `matrixCell` computes for the `i`-th and
`j`-th player names. -/
theorem buildResultMatrix_cell (rs : List (PKey × Record))
    (M : List (List Rat)) (h : buildResultMatrix rs = some M)
    (i j : Nat) (hi : i < (playerNames rs).length)
    (hj : j < (playerNames rs).length) :
    matrixCell rs ((playerNames rs).getD i "") ((playerNames rs).getD j "")
      = some ((M.getD i []).getD j 0) := by
  unfold buildResultMatrix at h
  have hrow := buildRows_row rs (playerNames rs) (playerNames rs) M h i hi
  exact buildRow_cell rs _ _ _ hrow j hj

theorem eloCell_none_of_lookup_none (rs : List (PKey × Record))
    (p1 p2 : String) (h : lookupRecord rs (p1, p2) = none) :
    eloCell rs p1 p2 = none := by
  simp [eloCell, h]

theorem eloRow_none_of_mem (rs : List (PKey × Record)) (p1 : String)
    (l : List String) (p2 : String) (hne : p1 ≠ p2) (h2 : p2 ∈ l)
    (hc : eloCell rs p1 p2 = none) : eloRow rs p1 l = none := by
  induction l with
  | nil => exact absurd h2 (by simp)
  | cons q rest ih =>
    unfold eloRow
    rcases List.mem_cons.mp h2 with hq | hmem
    · subst hq
      rw [if_neg hne, hc]
    · by_cases hpq : p1 = q
      · rw [if_pos hpq]
        exact ih hmem
      · rw [if_neg hpq, ih hmem]
        rcases eloCell rs p1 q with _ | ⟨t, wr⟩ <;> rfl

theorem eloRows_none_of_mem (rs : List (PKey × Record))
    (names l : List String) (p1 : String) (h1 : p1 ∈ l)
    (hr : eloRow rs p1 names = none) : eloRows rs names l = none := by
  induction l with
  | nil => exact absurd h1 (by simp)
  | cons q rest ih =>
    unfold eloRows
    rcases List.mem_cons.mp h1 with hq | hmem
    · subst hq; rw [hr]
    · rw [ih hmem]
      cases eloRow rs q names <;> rfl

/-! ## Concrete fixtures -/

/-- Alice (black) beats Bob (white); no handicap, komi 7. -/
def gAliceBob : ParsedGame :=
  { winner := .black, black := "Alice", white := "Bob",
    handicap := none, komi := 7 }

/-- Carol (black) beats Dave (white); no handicap, komi 7. -/
def gCarolDave : ParsedGame :=
  { winner := .black, black := "Carol", white := "Dave",
    handicap := none, komi := 7 }

/-- Extract the state from an ingestion call's outcome (every call in the
concrete runs below succeeds; the default is never taken there). -/
def okState : Except Summary Summary → Summary
  | .ok s => s
  | .error s => s

/-- File system for the duplicate-ingestion run: one batch file and one
single-game file, each holding one game. -/
def fsC1 : FS :=
  { dirs := [],
    files := [("x.sgfs", { lines := [some gAliceBob], whole := some gAliceBob }),
              ("y.sgf", { lines := [some gCarolDave], whole := some gCarolDave })] }

/-- State after `add_a_game_file("x.sgfs")` on a fresh aggregator. -/
def c1s1 : Summary := okState (addAGameFile fsC1 (initialSummary 0) "x.sgfs")

/-- State after a further `add_a_game_file("y.sgf")`. -/
def c1s2 : Summary := okState (addAGameFile fsC1 c1s1 "y.sgf")

/-- State after re-ingesting the already-tracked `"y.sgf"`. -/
def c1s3 : Summary := okState (addAGameFile fsC1 c1s2 "y.sgf")

/-- A drawn game between A (black) and B (white); no handicap, komi 7. -/
def gDrawAB : ParsedGame :=
  { winner := .noWinner, black := "A", white := "B",
    handicap := none, komi := 7 }

/-- A two-entry table holding one drawn game in orientation (A,B) and a
zero record in orientation (B,A): the smallest table on which the matrix
build succeeds with a draw present. -/
def drawTable : List (PKey × Record) :=
  [(("A", "B"), { win := 0, lost := 0, draw := 1 }),
   (("B", "A"), { win := 0, lost := 0, draw := 0 })]

/-- A table whose only key pairs a player name with itself. -/
def selfTable : List (PKey × Record) :=
  [(("A", "A"), { win := 1, lost := 0, draw := 0 })]

/-- The one-orientation table produced by folding a single Alice-beats-Bob
game into an empty aggregator. -/
def aliceBobTable : List (PKey × Record) :=
  [(("Alice", "Bob"), { win := 1, lost := 0, draw := 0 })]

/-! ## Claim C1 -/

/-- **C1** (code bug).  Ingestion is *not* idempotent in every interleaving:
after `add_a_game_file("x.sgfs")` then `add_a_game_file("y.sgf")`, a second
`add_a_game_file("y.sgf")` — a re-ingestion of an already-tracked path —
leaves both tracked sets unchanged but re-folds the stale
`_new_sgfs_files = {"x.sgfs"}` (never cleared after processing), raising the
(Alice, Bob) win count from 2 to 3.  This theorem evaluates the model at
that failing input. -/
theorem claim1_ingest_not_idempotent :
    "y.sgf" ∈ c1s2.allSgf
    ∧ addAGameFile fsC1 c1s2 "y.sgf" = Except.ok c1s3
    ∧ c1s3.allSgfs = c1s2.allSgfs
    ∧ c1s3.allSgf = c1s2.allSgf
    ∧ lookupRecord c1s2.results ("Alice", "Bob")
        = some { win := 2, lost := 0, draw := 0 }
    ∧ lookupRecord c1s3.results ("Alice", "Bob")
        = some { win := 3, lost := 0, draw := 0 } := by
  decide

/-! ## Claim C5 -/

/-- File system for the missing-directory run: one real directory holding
one batch file; the directory `"nodir"` does not exist. -/
def fsC5 : FS :=
  { dirs := [("d1", ["d1/x.sgfs"])],
    files := [("d1/x.sgfs", { lines := [some gAliceBob], whole := some gAliceBob })] }

/-- State after `add_games("d1")` on a fresh aggregator. -/
def c5s1 : Summary := okState (addGames fsC5 (initialSummary 0) "d1")

/-- State after a further `add_games("nodir")` on a missing directory. -/
def c5s2 : Summary := okState (addGames fsC5 c5s1 "nodir")

/-- **C5** (code bug).  `add_games` on a missing directory is *not* a
no-op: `_add_game_file_names` itself returns without touching the state,
but `add_games` still calls `_add_new_games_to_result_dict`, which
re-processes the stale `_new_sgfs_files` left over from the earlier
successful scan, raising the (Alice, Bob) win count from 1 to 2 even though
the tracked sets stay unchanged. -/
theorem claim5_missing_dir_changes_state :
    fsC5.listDir "nodir" = none
    ∧ addGames fsC5 c5s1 "nodir" = Except.ok c5s2
    ∧ c5s2.allSgfs = c5s1.allSgfs
    ∧ c5s2.allSgf = c5s1.allSgf
    ∧ lookupRecord c5s1.results ("Alice", "Bob")
        = some { win := 1, lost := 0, draw := 0 }
    ∧ lookupRecord c5s2.results ("Alice", "Bob")
        = some { win := 2, lost := 0, draw := 0 } := by
  decide

/-! ## Claim C6 -/

/-- File system whose batch file has a malformed first record followed by a
well-formed game. -/
def fsC6 : FS :=
  { dirs := [],
    files := [("x.sgfs", { lines := [none, some gAliceBob], whole := none })] }

/-- **C6** counterexample.  A parse failure on the first record of a batch
file aborts the whole file: the exception escapes
`_add_one_sgfs_file_to_result` with the state untouched, and the remaining
well-formed Alice-beats-Bob record is never folded. -/
theorem claim6_counterexample :
    addOneSgfsFile fsC6 (initialSummary 0) "x.sgfs"
      = Except.error (initialSummary 0)
    ∧ lookupRecord (initialSummary 0).results ("Alice", "Bob") = none := by
  decide

/-- **C6** as amended.  A parse failure on one record aborts processing of
the remaining records of the file and of the remaining files: folding any
batch whose records are `gs` (all parseable) followed by a malformed record
raises with exactly the `gs` prefix folded, the records after the failure
discarded; and a file-level failure makes the per-file loop abort the
remaining files. -/
theorem claim6_parse_failure_aborts (st : Summary) (gs : List ParsedGame)
    (rest : List RawGame) :
    foldRecords st (gs.map some ++ none :: rest)
      = Except.error (List.foldl addASingleParsed st gs)
    ∧ ∀ (fs : FS) (st' e : Summary) (p : String) (ps : List String),
        addOneSgfsFile fs st' p = Except.error e →
        addSgfsFilesLoop fs st' (p :: ps) = Except.error e := by
  constructor
  · induction gs generalizing st with
    | nil => rfl
    | cons g rest' ih =>
      simpa [foldRecords, addASingleSgfString] using ih (addASingleParsed st g)
  · intro fs st' e p ps h
    unfold addSgfsFilesLoop
    rw [h]

/-- Witness for `claim6_parse_failure_aborts` at a concrete batch and a
concrete file list. -/
theorem claim6_parse_failure_aborts_witness :
    foldRecords (initialSummary 0) ([gCarolDave].map some ++ none :: [some gAliceBob])
      = Except.error (List.foldl addASingleParsed (initialSummary 0) [gCarolDave])
    ∧ addSgfsFilesLoop fsC6 (initialSummary 0) ("x.sgfs" :: ["also.sgfs"])
      = Except.error (initialSummary 0) :=
  ⟨(claim6_parse_failure_aborts (initialSummary 0) [gCarolDave] [some gAliceBob]).1,
   (claim6_parse_failure_aborts (initialSummary 0) [gCarolDave] [some gAliceBob]).2
     fsC6 (initialSummary 0) (initialSummary 0) "x.sgfs" ["also.sgfs"] (by decide)⟩

/-! ## Claim C8 -/

/-- Komi 6.5 as a kernel-reducible reduced fraction. -/
def komiStd : Rat := Rat.mk' 13 2 (by decide) (by norm_num)

theorem komiStd_eq : komiStd = 13 / 2 := by
  rw [komiStd, Rat.mk'_eq_divInt, Rat.divInt_eq_div]; norm_num

/-- A game with komi 5.0 (sets the warning). -/
def gKomi5 : ParsedGame :=
  { winner := .black, black := "A", white := "B", handicap := none, komi := 5 }

/-- A game with standard komi 6.5 (does not set the warning). -/
def gKomi65 : ParsedGame :=
  { winner := .black, black := "A", white := "B", handicap := none,
    komi := komiStd }

/-- **C8** (confirmed).  The warning flag after folding any sequence of
parsed outcomes equals the old flag OR-ed with "some outcome has a handicap
or komi < 5.5 or komi > 7.5": it is set as soon as one outcome triggers,
never cleared by later folds, and cleared by `clear`; komi exactly 5.5 or
7.5 without handicap does not trigger; a komi-5.0 game followed by a
komi-6.5 game leaves it set. -/
theorem claim8_sticky_warning (st : Summary) (gs : List ParsedGame)
    (g : ParsedGame) :
    (List.foldl addASingleParsed st gs).warning
      = (st.warning || gs.any triggersWarning)
    ∧ (triggersWarning g = true
        ↔ (g.handicap.isSome = true ∨ g.komi < 11/2 ∨ g.komi > 15/2))
    ∧ (Summary.clear st).warning = false
    ∧ triggersWarning
        { winner := .black, black := "A", white := "B",
          handicap := none, komi := 11/2 } = false
    ∧ triggersWarning
        { winner := .black, black := "A", white := "B",
          handicap := none, komi := 15/2 } = false
    ∧ (List.foldl addASingleParsed (initialSummary 0) [gKomi5, gKomi65]).warning
        = true := by
  refine ⟨warning_foldl_addASingleParsed st gs, ?_, rfl, ?_, ?_, by decide⟩
  · simp [triggersWarning, komiLowBound_eq, komiHighBound_eq, GT.gt, or_assoc]
  · simp [triggersWarning, komiLowBound_eq, komiHighBound_eq]
    norm_num
  · simp [triggersWarning, komiLowBound_eq, komiHighBound_eq]
    norm_num

/-! ## Claim C9 -/

/-- A file system with no directories and no files: every input path
fails. -/
def fsC9 : FS := { dirs := [], files := [] }

/-- **C9** counterexample.  When every input path failed (here: the single
input directory is missing, so no game was ever folded), producing the
final reports does *not* yield empty output: `_print_player_info` computes
`max(pla_names, key=len)` over an empty name set and
`_print_result_matrix` computes `max([...])` over an empty matrix, both of
which raise `ValueError` — a hard crash. -/
theorem claim9_counterexample :
    addGames fsC9 (initialSummary 0) "missing" = Except.ok (initialSummary 0)
    ∧ (printGameResults (initialSummary 0).results).isSome = false := by
  decide

/-- **C9** as amended.  On an empty pairwise table the report printers
raise (`max()` of an empty sequence) rather than printing trivial empty
reports. -/
theorem claim9_empty_reports_crash (rs : List (PKey × Record))
    (h : rs = []) :
    printPlayerInfo rs = none
    ∧ printResultMatrix rs = none
    ∧ printGameResults rs = none := by
  subst h
  decide

/-- Witness for `claim9_empty_reports_crash` at the empty table. -/
theorem claim9_empty_reports_crash_witness :
    printPlayerInfo ([] : List (PKey × Record)) = none
    ∧ printResultMatrix ([] : List (PKey × Record)) = none
    ∧ printGameResults ([] : List (PKey × Record)) = none :=
  claim9_empty_reports_crash [] rfl

/-! ## Claim C2 -/

/-- File system holding the single-game file of the C2 scenario. -/
def fsC2 : FS :=
  { dirs := [],
    files := [("g.sgf", { lines := [some gAliceBob], whole := some gAliceBob })] }

/-- State after ingesting the Alice-beats-Bob single-game file into an
empty aggregator. -/
def c2s : Summary := okState (addAGameFile fsC2 (initialSummary 0) "g.sgf")

/-- **C2** counterexample.  The fold itself is right — the scenario's table
is exactly `{(Alice, Bob): Record(win=1)}` — but the claimed 2-player win
matrix does not exist: `_build_result_matrix` raises `KeyError` on the
absent `(Bob, Alice)` key, so there is no matrix with `M[Alice][Bob] = 1`
and `M[Bob][Alice] = 0`. -/
theorem claim2_counterexample :
    (addAGameFile fsC2 (initialSummary 0) "g.sgf").isOk = true
    ∧ c2s.results = [(("Alice", "Bob"), { win := 1, lost := 0, draw := 0 })]
    ∧ buildResultMatrix c2s.results = none := by
  decide

/-- **C2** as amended.  `fold_outcome` looks up or creates the record keyed
by the ordered `(first, second)` pair and increments exactly the field
selected by the winner; ingesting the single Alice-beats-Bob game into an
empty aggregator yields the one-entry table `{(Alice, Bob): wins=1}`, but
the win-matrix construction then fails (`KeyError` on the absent
`(Bob, Alice)` key) instead of producing the claimed matrix. -/
theorem claim2_fold_outcome (st : Summary) (g : ParsedGame) :
    ((lookupRecord (addASingleParsed st g).results (g.black, g.white)).isSome
      = true
    ∧ (g.winner = Winner.black →
        ((lookupRecord (addASingleParsed st g).results (g.black, g.white)).getD
            zeroRecord).win
          = ((lookupRecord st.results (g.black, g.white)).getD zeroRecord).win + 1
        ∧ ((lookupRecord (addASingleParsed st g).results (g.black, g.white)).getD
            zeroRecord).lost
          = ((lookupRecord st.results (g.black, g.white)).getD zeroRecord).lost
        ∧ ((lookupRecord (addASingleParsed st g).results (g.black, g.white)).getD
            zeroRecord).draw
          = ((lookupRecord st.results (g.black, g.white)).getD zeroRecord).draw)
    ∧ (g.winner = Winner.white →
        ((lookupRecord (addASingleParsed st g).results (g.black, g.white)).getD
            zeroRecord).lost
          = ((lookupRecord st.results (g.black, g.white)).getD zeroRecord).lost + 1
        ∧ ((lookupRecord (addASingleParsed st g).results (g.black, g.white)).getD
            zeroRecord).win
          = ((lookupRecord st.results (g.black, g.white)).getD zeroRecord).win
        ∧ ((lookupRecord (addASingleParsed st g).results (g.black, g.white)).getD
            zeroRecord).draw
          = ((lookupRecord st.results (g.black, g.white)).getD zeroRecord).draw)
    ∧ (g.winner = Winner.noWinner →
        ((lookupRecord (addASingleParsed st g).results (g.black, g.white)).getD
            zeroRecord).draw
          = ((lookupRecord st.results (g.black, g.white)).getD zeroRecord).draw + 1
        ∧ ((lookupRecord (addASingleParsed st g).results (g.black, g.white)).getD
            zeroRecord).win
          = ((lookupRecord st.results (g.black, g.white)).getD zeroRecord).win
        ∧ ((lookupRecord (addASingleParsed st g).results (g.black, g.white)).getD
            zeroRecord).lost
          = ((lookupRecord st.results (g.black, g.white)).getD zeroRecord).lost))
    ∧ c2s.results = [(("Alice", "Bob"), { win := 1, lost := 0, draw := 0 })]
    ∧ buildResultMatrix c2s.results = none := by
  refine ⟨⟨?_, ?_, ?_, ?_⟩, by decide, by decide⟩ <;>
    rw [lookupRecord_addASingleParsed_self]
  · rfl
  all_goals intro hw
  all_goals simp [hw, bump]

/-- Witness for `claim2_fold_outcome`: the Alice-beats-Bob game folded into
the empty table. -/
theorem claim2_fold_outcome_witness :
    ((lookupRecord (addASingleParsed (initialSummary 0) gAliceBob).results
        ("Alice", "Bob")).getD zeroRecord).win
      = ((lookupRecord (initialSummary 0).results ("Alice", "Bob")).getD
          zeroRecord).win + 1 :=
  ((claim2_fold_outcome (initialSummary 0) gAliceBob).1.2.1 rfl).1

/-! ## Claim C3 -/

/-- **C3** (confirmed).  Whenever `_build_result_matrix` returns a matrix
`M`, `M` is square of side `len(player_index())`, has zero diagonal, and
every off-diagonal entry `M[i][j]` equals
`results[(n_i, n_j)].win + results[(n_j, n_i)].lost
 + 0.5 * (results[(n_i, n_j)].draw + results[(n_j, n_i)].draw)`; on the
two-player table with one drawn game the build yields
`[[0, 1/2], [1/2, 0]]` — the draw contributes exactly 0.5 to each side. -/
theorem claim3_win_matrix (rs : List (PKey × Record)) (M : List (List Rat))
    (h : buildResultMatrix rs = some M) :
    M.length = (playerNames rs).length
    ∧ (∀ i, i < M.length → (M.getD i []).length = (playerNames rs).length)
    ∧ (∀ i, i < (playerNames rs).length → (M.getD i []).getD i 0 = 0)
    ∧ (∀ i j, i < (playerNames rs).length → j < (playerNames rs).length →
        i ≠ j →
        ∃ r12 r21,
          lookupRecord rs
            ((playerNames rs).getD i "", (playerNames rs).getD j "") = some r12
          ∧ lookupRecord rs
              ((playerNames rs).getD j "", (playerNames rs).getD i "") = some r21
          ∧ (M.getD i []).getD j 0
              = (r12.win : Rat) + (r21.lost : Rat)
                + ((r12.draw : Rat) + (r21.draw : Rat)) / 2)
    ∧ buildResultMatrix drawTable = some [[0, 1/2], [1/2, 0]] := by
  have hlen : M.length = (playerNames rs).length :=
    buildRows_length rs (playerNames rs) (playerNames rs) M h
  refine ⟨hlen, ?_, ?_, ?_, ?_⟩
  · intro i hi
    rw [hlen] at hi
    have hrow := buildRows_row rs (playerNames rs) (playerNames rs) M h i hi
    exact buildRow_length rs _ _ _ hrow
  · intro i hi
    have hc := buildResultMatrix_cell rs M h i i hi hi
    rw [matrixCell_diag] at hc
    exact (Option.some_inj.mp hc).symm
  · intro i j hi hj hij
    have hc := buildResultMatrix_cell rs M h i j hi hj
    have hne : (playerNames rs).getD i "" ≠ (playerNames rs).getD j "" := by
      rw [List.getD_eq_getElem _ _ hi, List.getD_eq_getElem _ _ hj]
      intro hcon
      exact hij (((playerNames_nodup rs).getElem_inj_iff).mp hcon)
    obtain ⟨r12, r21, h12, h21, hv⟩ :=
      matrixCell_ne_some rs _ _ _ hne hc
    exact ⟨r12, r21, h12, h21, hv⟩
  · simp [buildResultMatrix, playerNames, drawTable, buildRows, buildRow,
      matrixCell, lookupRecord]

/-- Witness for `claim3_win_matrix` at the concrete drawn-game table. -/
theorem claim3_win_matrix_witness :
    ([[(0 : Rat), 1/2], [1/2, 0]] : List (List Rat)).length
      = (playerNames drawTable).length := by
  have h : buildResultMatrix drawTable = some [[0, 1/2], [1/2, 0]] := by
    simp [buildResultMatrix, playerNames, drawTable, buildRows, buildRow,
      matrixCell, lookupRecord]
  exact (claim3_win_matrix drawTable [[0, 1/2], [1/2, 0]] h).1

/-! ## Claim C4 -/

/-- **C4** counterexample.  The symmetry law as stated quantifies over all
players `i` and `j`, including `i = j`: on a table holding one game whose
two sides carry the same name `"A"`, the player index is `["A"]`, the build
succeeds with `M = [[0]]`, and `M[0][0] + M[0][0] = 0` while the total game
count of `("A","A")` in both orientations is `1 + 1 = 2`. -/
theorem claim4_counterexample :
    buildResultMatrix selfTable = some [[0]]
    ∧ playerNames selfTable = ["A"]
    ∧ ¬ ((([[(0 : Rat)]].getD 0 []).getD 0 0) + (([[(0 : Rat)]].getD 0 []).getD 0 0)
        = ((((lookupRecord selfTable ("A", "A")).getD zeroRecord).total : Rat)
          + (((lookupRecord selfTable ("A", "A")).getD zeroRecord).total : Rat))) := by
  refine ⟨by simp [buildResultMatrix, playerNames, selfTable, buildRows,
      buildRow, matrixCell], by decide, ?_⟩
  simp [lookupRecord, selfTable, zeroRecord, Record.total]
  norm_num

/-- **C4** as amended.  For all *distinct* players `i ≠ j` of the player
index, `M[i][j] + M[j][i]` equals the total number of games recorded
between them across both color orientations (for `i = j` the source pins
`M[i][i] = 0` regardless of any self-paired entry, so the law holds there
only in the absence of a self-pair key). -/
theorem claim4_matrix_symmetry (rs : List (PKey × Record))
    (M : List (List Rat)) (h : buildResultMatrix rs = some M)
    (i j : Nat) (hi : i < (playerNames rs).length)
    (hj : j < (playerNames rs).length) (hij : i ≠ j) :
    (M.getD i []).getD j 0 + (M.getD j []).getD i 0
      = (((lookupRecord rs
            ((playerNames rs).getD i "", (playerNames rs).getD j "")).getD
            zeroRecord).total : Rat)
        + (((lookupRecord rs
            ((playerNames rs).getD j "", (playerNames rs).getD i "")).getD
            zeroRecord).total : Rat) := by
  have hne : (playerNames rs).getD i "" ≠ (playerNames rs).getD j "" := by
    rw [List.getD_eq_getElem _ _ hi, List.getD_eq_getElem _ _ hj]
    intro hcon
    exact hij (((playerNames_nodup rs).getElem_inj_iff).mp hcon)
  have hcij := buildResultMatrix_cell rs M h i j hi hj
  have hcji := buildResultMatrix_cell rs M h j i hj hi
  obtain ⟨r12, r21, h12, h21, hvij⟩ := matrixCell_ne_some rs _ _ _ hne hcij
  obtain ⟨s12, s21, hs12, hs21, hvji⟩ :=
    matrixCell_ne_some rs _ _ _ (Ne.symm hne) hcji
  have e1 : s12 = r21 := Option.some_inj.mp (hs12.symm.trans h21)
  have e2 : s21 = r12 := Option.some_inj.mp (hs21.symm.trans h12)
  subst e1 e2
  rw [hvij, hvji, h12, h21]
  simp only [Option.getD_some, Record.total]
  push_cast
  ring

/-- Witness for `claim4_matrix_symmetry` at the drawn-game table:
`M[0][1] + M[1][0] = 1/2 + 1/2` equals the one recorded game. -/
theorem claim4_matrix_symmetry_witness :
    (([[(0 : Rat), 1/2], [1/2, 0]].getD 0 []).getD 1 0)
      + (([[(0 : Rat), 1/2], [1/2, 0]].getD 1 []).getD 0 0)
      = (((lookupRecord drawTable
            ((playerNames drawTable).getD 0 "",
             (playerNames drawTable).getD 1 "")).getD zeroRecord).total : Rat)
        + (((lookupRecord drawTable
            ((playerNames drawTable).getD 1 "",
             (playerNames drawTable).getD 0 "")).getD zeroRecord).total : Rat) := by
  have h : buildResultMatrix drawTable = some [[0, 1/2], [1/2, 0]] := by
    simp [buildResultMatrix, playerNames, drawTable, buildRows, buildRow,
      matrixCell, lookupRecord]
  exact claim4_matrix_symmetry drawTable [[0, 1/2], [1/2, 0]] h 0 1
    (by decide) (by decide) (by decide)

/-! ## Claim C7 -/

/-- **C7** counterexample.  On a table holding only the `(Alice, Bob)`
orientation, both consumers raise instead of reading the missing
`(Bob, Alice)` key as zero: the matrix builder and the elo data preparation
both fail with `KeyError`. -/
theorem claim7_counterexample :
    lookupRecord aliceBobTable ("Bob", "Alice") = none
    ∧ buildResultMatrix aliceBobTable = none
    ∧ estimateEloData aliceBobTable = none := by
  decide

/-- **C7** as amended.  Consumers do *not* treat a missing ordered pair as
a zero record: whenever two distinct players `A ≠ B` both appear in the
player index but the key `(A, B)` is absent, `_build_result_matrix` raises
`KeyError` (returns no matrix) and so does the pair-summary loop of
`_estimate_elo`. -/
theorem claim7_missing_key_raises (rs : List (PKey × Record))
    (A B : String) (hA : A ∈ playerNames rs) (hB : B ∈ playerNames rs)
    (hAB : A ≠ B) (hmiss : lookupRecord rs (A, B) = none) :
    buildResultMatrix rs = none ∧ estimateEloData rs = none := by
  constructor
  · have hcell := matrixCell_none_left rs A B hAB hmiss
    have hrow := buildRow_none_of_mem rs A (playerNames rs) B hB hcell
    exact buildRows_none_of_mem rs (playerNames rs) (playerNames rs) A hA hrow
  · have hcell := eloCell_none_of_lookup_none rs A B hmiss
    have hrow := eloRow_none_of_mem rs A (playerNames rs) B hAB hB hcell
    exact eloRows_none_of_mem rs (playerNames rs) (playerNames rs) A hA hrow

/-- Witness for `claim7_missing_key_raises` at the one-orientation table,
with the missing key `("Bob", "Alice")`. -/
theorem claim7_missing_key_raises_witness :
    buildResultMatrix aliceBobTable = none
    ∧ estimateEloData aliceBobTable = none :=
  claim7_missing_key_raises aliceBobTable "Bob" "Alice"
    (by decide) (by decide) (by decide) (by decide)

/-! ## Claim C10 -/

/-- **C10** (confirmed).  Every successfully folded game adds exactly 1 to
exactly one of the three counters of exactly the game's own ordered-pair
record, changes no other entry, and never decreases a counter; hence the
grand total of `win + lost + draw` over the table equals the number of
records folded since construction or the last `clear`. -/
theorem claim10_counter_conservation (st : Summary) (g : ParsedGame)
    (gs : List ParsedGame) (k : PKey) (prior : Rat) :
    totalGames (addASingleParsed st g).results = totalGames st.results + 1
    ∧ (k ≠ (g.black, g.white) →
        lookupRecord (addASingleParsed st g).results k
          = lookupRecord st.results k)
    ∧ ((((lookupRecord (addASingleParsed st g).results (g.black, g.white)).getD
          zeroRecord).win
        = ((lookupRecord st.results (g.black, g.white)).getD zeroRecord).win + 1
      ∧ ((lookupRecord (addASingleParsed st g).results (g.black, g.white)).getD
          zeroRecord).lost
        = ((lookupRecord st.results (g.black, g.white)).getD zeroRecord).lost
      ∧ ((lookupRecord (addASingleParsed st g).results (g.black, g.white)).getD
          zeroRecord).draw
        = ((lookupRecord st.results (g.black, g.white)).getD zeroRecord).draw)
    ∨ (((lookupRecord (addASingleParsed st g).results (g.black, g.white)).getD
          zeroRecord).win
        = ((lookupRecord st.results (g.black, g.white)).getD zeroRecord).win
      ∧ ((lookupRecord (addASingleParsed st g).results (g.black, g.white)).getD
          zeroRecord).lost
        = ((lookupRecord st.results (g.black, g.white)).getD zeroRecord).lost + 1
      ∧ ((lookupRecord (addASingleParsed st g).results (g.black, g.white)).getD
          zeroRecord).draw
        = ((lookupRecord st.results (g.black, g.white)).getD zeroRecord).draw)
    ∨ (((lookupRecord (addASingleParsed st g).results (g.black, g.white)).getD
          zeroRecord).win
        = ((lookupRecord st.results (g.black, g.white)).getD zeroRecord).win
      ∧ ((lookupRecord (addASingleParsed st g).results (g.black, g.white)).getD
          zeroRecord).lost
        = ((lookupRecord st.results (g.black, g.white)).getD zeroRecord).lost
      ∧ ((lookupRecord (addASingleParsed st g).results (g.black, g.white)).getD
          zeroRecord).draw
        = ((lookupRecord st.results (g.black, g.white)).getD zeroRecord).draw + 1))
    ∧ totalGames (List.foldl addASingleParsed (Summary.clear st) gs).results
        = gs.length
    ∧ totalGames (List.foldl addASingleParsed (initialSummary prior) gs).results
        = gs.length
    ∧ (((lookupRecord st.results k).getD zeroRecord).win
        ≤ ((lookupRecord (addASingleParsed st g).results k).getD zeroRecord).win
      ∧ ((lookupRecord st.results k).getD zeroRecord).lost
        ≤ ((lookupRecord (addASingleParsed st g).results k).getD zeroRecord).lost
      ∧ ((lookupRecord st.results k).getD zeroRecord).draw
        ≤ ((lookupRecord (addASingleParsed st g).results k).getD
            zeroRecord).draw) := by
  have hself := lookupRecord_addASingleParsed_self st g
  refine ⟨totalGames_addASingleParsed st g,
    lookupRecord_addASingleParsed_ne st g k, ?_, ?_, ?_, ?_⟩
  · rw [hself]
    cases g.winner <;> simp [bump]
  · rw [totalGames_foldl_addASingleParsed]
    simp [Summary.clear, totalGames]
  · rw [totalGames_foldl_addASingleParsed]
    simp [initialSummary, totalGames]
  · by_cases hk : k = (g.black, g.white)
    · subst hk
      rw [hself]
      cases g.winner <;> simp [bump]
    · rw [lookupRecord_addASingleParsed_ne st g k hk]
      exact ⟨le_refl _, le_refl _, le_refl _⟩

/-- Witness for `claim10_counter_conservation`: one game folded into the
fresh aggregator, untouched key `("X", "Y")`. -/
theorem claim10_counter_conservation_witness :
    totalGames (addASingleParsed (initialSummary 0) gAliceBob).results
      = totalGames (initialSummary 0).results + 1
    ∧ lookupRecord (addASingleParsed (initialSummary 0) gAliceBob).results
        ("X", "Y")
      = lookupRecord (initialSummary 0).results ("X", "Y") :=
  ⟨(claim10_counter_conservation (initialSummary 0) gAliceBob [] ("X", "Y") 0).1,
   (claim10_counter_conservation (initialSummary 0) gAliceBob [] ("X", "Y") 0).2.1
     (by decide)⟩

end SummarizeSgfs
